import Mathlib

/-!
Shallow embedding of the chain-tracker reconciliation engine
(source: the IndexedDB layer `db.js` and the orchestration module `app.js`).

JavaScript values are modelled as follows: numbers that the code treats as
epoch seconds, counts or ids are `Int`/`Nat`; absent (`undefined`/`null`)
fields are `Option`; JS objects used as string-keyed dictionaries are
association lists with JS object semantics (update-in-place keeps position,
new keys append, `Object.entries`/`Object.values` iterate in insertion
order); a JS `Set` of key strings is a duplicate-free `List String` in
insertion order.
-/

/-- ASCII lower-casing, used to model the `i` flag of the source regexes
(all case-insensitive literals in the source are ASCII). -/
def asciiLower (c : Char) : Char :=
  if 'A' ≤ c ∧ c ≤ 'Z' then Char.ofNat (c.toNat + 32) else c

/-- Case-insensitive character comparison (models the regex `i` flag). -/
def ciEq (a b : Char) : Bool := asciiLower a = asciiLower b

/-- JS whitespace class (`\s`, `String.prototype.trim`). -/
def jsIsSpace (c : Char) : Bool :=
  c = ' ' || c = '\t' || c = '\n' || c = '\r' ||
  c.toNat = 11 || c.toNat = 12 || c.toNat = 160 || c.toNat = 0x1680 ||
  (0x2000 ≤ c.toNat && c.toNat ≤ 0x200A) ||
  c.toNat = 0x2028 || c.toNat = 0x2029 || c.toNat = 0x202F ||
  c.toNat = 0x205F || c.toNat = 0x3000 || c.toNat = 0xFEFF

/-- Does `pat` occur at the head of `s` (case-sensitive)? -/
def leadsWith : List Char → List Char → Bool
  | [], _ => true
  | _ :: _, [] => false
  | p :: ps, c :: cs => p = c && leadsWith ps cs

/-- Does `pat` occur at the head of `s`, case-insensitively? -/
def leadsWithCI : List Char → List Char → Bool
  | [], _ => true
  | _ :: _, [] => false
  | p :: ps, c :: cs => ciEq p c && leadsWithCI ps cs

/-- `String.prototype.includes` (case-sensitive substring test). -/
def subInString (pat : List Char) : List Char → Bool
  | [] => leadsWith pat []
  | c :: cs => leadsWith pat (c :: cs) || subInString pat cs

/-- `String.prototype.indexOf` for a pattern list: index of the first
occurrence, `none` when absent. -/
def idxOfSub (pat : List Char) : List Char → Option Nat
  | [] => if leadsWith pat [] then some 0 else none
  | c :: cs =>
    if leadsWith pat (c :: cs) then some 0
    else (idxOfSub pat cs).map (· + 1)

/-- Worker for `stripTags`: models one left-to-right pass of
`text.replace(/<[^>]+>/g, repl)`.  `buf = some acc` means we are inside a
candidate tag opened by `<` with `acc` holding (reversed) the characters
seen since; a closing `>` with a non-empty body replaces the whole span by
`repl`, a `<>` with empty body or an unterminated `<…` is left verbatim,
exactly as the regex engine leaves non-matching text. -/
def stripGo (repl : List Char) : Option (List Char) → List Char → List Char
  | none, [] => []
  | some acc, [] => '<' :: acc.reverse
  | none, c :: rest =>
    if c = '<' then stripGo repl (some []) rest
    else c :: stripGo repl none rest
  | some acc, c :: rest =>
    if c = '>' then
      (if acc = [] then '<' :: '>' :: stripGo repl none rest
       else repl ++ stripGo repl none rest)
    else stripGo repl (some (c :: acc)) rest

/-- `text.replace(/<[^>]+>/g, repl)` (markup stripping in the source). -/
def stripTags (repl : List Char) (l : List Char) : List Char :=
  stripGo repl none l

/-- `String.prototype.trim` (JS whitespace at both ends). -/
def trimChars (l : List Char) : List Char :=
  ((l.dropWhile jsIsSpace).reverse.dropWhile jsIsSpace).reverse

/-- Worker for `wsTokens`: splits into maximal runs of non-whitespace,
dropping empty pieces — i.e. `text.split(/\s+/).filter(Boolean)`. -/
def wsTokensAux : List Char → List Char → List (List Char)
  | acc, [] => if acc.isEmpty then [] else [acc.reverse]
  | acc, c :: rest =>
    if jsIsSpace c then
      (if acc.isEmpty then wsTokensAux [] rest
       else acc.reverse :: wsTokensAux [] rest)
    else wsTokensAux (c :: acc) rest

/-- `text.split(/\s+/).filter(Boolean)`. -/
def wsTokens (l : List Char) : List (List Char) := wsTokensAux [] l

/-- `parseInt(digits, 10)` on a non-empty digit run (`\d+` guarantees
decimal digits, so no NaN case arises). -/
def digitsToNat (ds : List Char) : Nat :=
  ds.foldl (fun acc c => acc * 10 + (c.toNat - '0'.toNat)) 0

/-- The literal part of `PROFILE_LINK_REGEX`. -/
def profileLit : List Char := "profiles.php?XID=".data

/-- Attempt `PROFILE_LINK_REGEX = /profiles\.php\?XID=(\d+)(?:[^>]*>([^<]*))?/i`
anchored at the head of `s`.  Returns the digit capture and the optional
second capture.  The optional group `[^>]*>([^<]*)` matches exactly when a
`>` occurs after the digits with only non-`>` characters before it (a
`[^>]*` run cannot cross a `>`), and then captures the following run of
non-`<` characters. -/
def matchProfileAt (s : List Char) : Option (List Char × Option (List Char)) :=
  if leadsWithCI profileLit s then
    let rest := s.drop profileLit.length
    let ds := rest.takeWhile Char.isDigit
    if ds.isEmpty then none
    else
      let r2 := rest.drop ds.length
      let a := r2.takeWhile (fun c => c ≠ '>')
      match r2.drop a.length with
      | '>' :: r4 => some (ds, some (r4.takeWhile (fun c => c ≠ '<')))
      | _ => some (ds, none)
  else none

/-- Leftmost match of `PROFILE_LINK_REGEX` (`text.match(...)` semantics). -/
def findProfile : List Char → Option (List Char × Option (List Char))
  | [] => none
  | c :: rest =>
    match matchProfileAt (c :: rest) with
    | some r => some r
    | none => findProfile rest

/-- Literal pieces of `POINTS_REGEX = /used (\d+) faction points/gi`. -/
def usedLit : List Char := "used ".data

/-- Trailing literal of `POINTS_REGEX`. -/
def factionPointsLit : List Char := " faction points".data

/-- Attempt `POINTS_REGEX` anchored at the head of `s`: the literal
`used ` (case-insensitive), a maximal digit run, then the literal
` faction points` (case-insensitive).  Backtracking a shortened `\d+`
cannot succeed (the next required character would be a space but a digit
follows), so the maximal run is the only candidate.  Returns the parsed
amount and the digit-run length. -/
def matchPointsAt (s : List Char) : Option (Nat × Nat) :=
  if leadsWithCI usedLit s then
    let rest := s.drop usedLit.length
    let ds := rest.takeWhile Char.isDigit
    if ds.isEmpty then none
    else
      if leadsWithCI factionPointsLit (rest.drop ds.length) then
        some (digitsToNat ds, ds.length)
      else none
  else none

/-- Worker for `scanPoints`.  The fuel argument only serves structural
recursion: every step either advances one character or consumes a whole
match (at least 20 characters), so starting the fuel at the input length
never exhausts it before the input. -/
def scanPointsGo : Nat → List Char → List Nat
  | 0, _ => []
  | _ + 1, [] => []
  | fuel + 1, c :: rest =>
    match matchPointsAt (c :: rest) with
    | some (n, dl) => n :: scanPointsGo fuel (rest.drop (dl + 19))
    | none => scanPointsGo fuel rest

/-- The `while ((match = regex.exec(text)) !== null)` loop over
`POINTS_REGEX` with the `g` flag: all non-overlapping matches left to
right, each full match spanning `5 + ds.length + 15` characters. -/
def scanPoints (l : List Char) : List Nat := scanPointsGo l.length l

/-- A single apostrophe character (U+0027). -/
def apos : Char := Char.ofNat 39

/-- `XANAX_PHRASE` from the source. -/
def xanaxPhrase : String :=
  "used one of the faction" ++ String.mk [apos] ++ "s Xanax items"

/-- The `" used "` marker searched with `indexOf` in `extractMemberName`. -/
def usedMarker : List Char := " used ".data

/-- `text.includes(pat)`. -/
def jsIncludes (text pat : String) : Bool := subInString pat.data text.data

/-- `extractMemberName` (app.js): text before the first `" used "` when that
marker occurs at a positive index, markup stripped and trimmed; otherwise
the first whitespace-delimited token of the cleaned text, or `"Unknown"`. -/
def extractMemberName (text : String) : String :=
  let l := text.data
  let fallback :=
    match wsTokens (stripTags [' '] (trimChars l)) with
    | t :: _ => String.mk t
    | [] => "Unknown"
  match idxOfSub usedMarker l with
  | some i =>
    if 0 < i then String.mk (trimChars (stripTags [] (l.take i)))
    else fallback
  | none => fallback

/-- The `{ id, name }` record produced by `extractMemberIdAndName`. -/
structure Member where
  id : String
  name : String
deriving DecidableEq, Repr

/-- `extractMemberIdAndName` (app.js): profile-link match first (id is the
digit capture as a string, name the trimmed second capture or the heuristic
name), else the heuristic name doubling as id, else `null`. -/
def extractMemberIdAndName (text : String) : Option Member :=
  match findProfile text.data with
  | some (ds, g2) =>
    let name0 := String.mk (trimChars (g2.getD []))
    let name := if name0 = "" then extractMemberName text else name0
    some ⟨String.mk ds, name⟩
  | none =>
    let n := extractMemberName text
    if n = "" then none else some ⟨n, n⟩

/-- Association-list lookup (first binding wins, as JS property access). -/
def lookupA {κ α : Type} [DecidableEq κ] : List (κ × α) → κ → Option α
  | [], _ => none
  | (k, v) :: rest, key => if k = key then some v else lookupA rest key

/-- Association-list write with JS object semantics: an existing key is
updated in place (position kept), a new key is appended. -/
def insertA {κ α : Type} [DecidableEq κ] : List (κ × α) → κ → α → List (κ × α)
  | [], key, v => [(key, v)]
  | (k, w) :: rest, key, v =>
    if k = key then (k, v) :: rest else (k, w) :: insertA rest key v

/-- One entry of the transient `xanax` map in `extractConsumption`. -/
structure XEntry where
  count : Nat
  name : String
deriving DecidableEq, Repr

/-- One entry of the transient `points` map in `extractConsumption`. -/
structure PEntry where
  amount : Nat
  name : String
deriving DecidableEq, Repr

/-- The `addXanax` closure of `extractConsumption`: skip falsy ids, else
bump the count and keep the last truthy name. -/
def addXanax (m : List (String × XEntry)) (id name : String) :
    List (String × XEntry) :=
  if id = "" then m
  else
    let cur := (lookupA m id).getD ⟨0, name⟩
    insertA m id ⟨cur.count + 1, if name = "" then cur.name else name⟩

/-- The `addPoints` closure of `extractConsumption`: skip falsy ids and
falsy (zero) amounts, else add the amount and keep the last truthy name. -/
def addPoints (m : List (String × PEntry)) (id : String) (amount : Nat)
    (name : String) : List (String × PEntry) :=
  if id = "" ∨ amount = 0 then m
  else
    let cur := (lookupA m id).getD ⟨0, name⟩
    insertA m id ⟨cur.amount + amount, if name = "" then cur.name else name⟩

/-- The `{ xanax, points }` result of `extractConsumption`. -/
structure ConsResult where
  xanax : List (String × XEntry)
  points : List (String × PEntry)
deriving DecidableEq, Repr

/-- A raw feed item.  The source reads `item.timestamp ?? item.time ?? item.id`
for the timestamp, `item.news ?? item.text ?? item.content ?? ''` for the
message, and `item.id` (falling back to a composite) for the dedup key. -/
structure RawItem where
  id : Option Int
  timestamp : Option Int
  time : Option Int
  news : Option String
  text : Option String
  content : Option String
deriving DecidableEq, Repr

/-- `item.timestamp ?? item.time ?? item.id`. -/
def tsOf (it : RawItem) : Option Int := it.timestamp <|> it.time <|> it.id

/-- `item.news ?? item.text ?? item.content ?? ''`. -/
def textOf (it : RawItem) : String :=
  ((it.news <|> it.text) <|> it.content).getD ""

/-- JS `<` against a possibly-undefined left operand: comparison with
`undefined` is false. -/
def optLt (a : Option Int) (b : Int) : Bool :=
  match a with
  | some x => x < b
  | none => false

/-- JS `>` against a possibly-undefined left operand. -/
def optGt (a : Option Int) (b : Int) : Bool :=
  match a with
  | some x => b < x
  | none => false

/-- Template-literal rendering of a possibly-undefined number. -/
def optTsString (a : Option Int) : String :=
  match a with
  | some n => toString n
  | none => "undefined"

/-- Stand-in for `JSON.stringify(item)`: a deterministic rendering of the
item.  The source only uses its first 50 characters inside the fallback
dedup key, so any injective-enough deterministic rendering models it. -/
def serializeItem (it : RawItem) : String :=
  "\x7b" ++ optTsString it.id ++ "," ++ optTsString it.timestamp ++ "," ++
    optTsString it.time ++ "," ++ (it.news.getD "") ++ "," ++
    (it.text.getD "") ++ "," ++ (it.content.getD "") ++ "\x7d"

/-- The dedup key: `item.id ?? ts + '-' + JSON.stringify(item).slice(0, 50)`. -/
def itemKey (it : RawItem) : String :=
  match it.id with
  | some i => toString i
  | none => optTsString (tsOf it) ++ "-" ++ (serializeItem it).take 50

/-- One iteration of the `for (const item of newsItems)` loop in
`extractConsumption`: bounds check, dedup check, mark processed, extract
the member, then apply `addXanax` for the fixed phrase and `addPoints` for
every `POINTS_REGEX` match. -/
def extractStep (s e : Int) (st : ConsResult × List String) (item : RawItem) :
    ConsResult × List String :=
  let ts := tsOf item
  if optLt ts s then st
  else if optGt ts e then st
  else
    let key := itemKey item
    if key ∈ st.2 then st
    else
      let proc := st.2 ++ [key]
      let text := textOf item
      match extractMemberIdAndName text with
      | none => (st.1, proc)
      | some m =>
        let x :=
          if jsIncludes text xanaxPhrase then addXanax st.1.xanax m.id m.name
          else st.1.xanax
        let p := (scanPoints text.data).foldl
          (fun pm n => addPoints pm m.id n m.name) st.1.points
        (⟨x, p⟩, proc)

/-- The item loop of `extractConsumption`. -/
def extractLoop (s e : Int) : List RawItem → (ConsResult × List String) →
    ConsResult × List String
  | [], st => st
  | it :: rest, st => extractLoop s e rest (extractStep s e st it)

/-- `extractConsumption(newsItems, chainStart, chainEnd, processedIds)`:
returns the `{ xanax, points }` result together with the updated dedup
set (the source mutates the `Set` in place). -/
def extractConsumption (items : List RawItem) (chainStart chainEnd : Int)
    (processed : List String) : ConsResult × List String :=
  extractLoop chainStart chainEnd items (⟨[], []⟩, processed)

/-- One entry of the persisted `consumption` map. -/
structure CEntry where
  xanax : Nat
  points : Nat
  name : String
deriving DecidableEq, Repr

/-- One iteration of the first `mergeConsumption` loop (over the fresh
`xanax` entries): add the count into the existing entry, keeping the
spread fields and preferring a truthy new name. -/
def mergeXStep (c : List (String × CEntry)) (kv : String × XEntry) :
    List (String × CEntry) :=
  let cur := (lookupA c kv.1).getD ⟨0, 0, kv.2.name⟩
  insertA c kv.1
    ⟨cur.xanax + kv.2.count, cur.points,
     if kv.2.name = "" then cur.name else kv.2.name⟩

/-- One iteration of the second `mergeConsumption` loop (over the fresh
`points` entries). -/
def mergePStep (c : List (String × CEntry)) (kv : String × PEntry) :
    List (String × CEntry) :=
  let cur := (lookupA c kv.1).getD ⟨0, 0, kv.2.name⟩
  insertA c kv.1
    ⟨cur.xanax, cur.points + kv.2.amount,
     if kv.2.name = "" then cur.name else kv.2.name⟩

/-- `mergeConsumption(chain, xanax, points)`: adds the freshly aggregated
per-actor counts and amounts into the persisted consumption map. -/
def mergeConsumption (cons : List (String × CEntry))
    (x : List (String × XEntry)) (p : List (String × PEntry)) :
    List (String × CEntry) :=
  p.foldl mergePStep (x.foldl mergeXStep cons)

/-- One entry of the per-sync `hits` map. -/
structure HitEntry where
  hits : Nat
  respect : Nat
  name : String
deriving DecidableEq, Repr

/-- The `totals` snapshot. -/
structure Totals where
  hits : Nat
  respect : Nat
  xanax : Nat
  points : Nat
deriving DecidableEq, Repr

/-- The summation loops of `updateTotals` as a pure fold. -/
def totalsOf (hits : List (String × HitEntry))
    (cons : List (String × CEntry)) : Totals :=
  let h := hits.foldl (fun acc kv => (acc.1 + kv.2.hits, acc.2 + kv.2.respect))
    ((0 : Nat), (0 : Nat))
  let c := cons.foldl (fun acc kv => (acc.1 + kv.2.xanax, acc.2 + kv.2.points))
    ((0 : Nat), (0 : Nat))
  ⟨h.1, h.2, c.1, c.2⟩

/-- The persisted chain record (object store `chains`).  `endTs` renders the
source field `end` (a Lean keyword). -/
structure ChainRec where
  chainId : Int
  start : Int
  endTs : Option Int
  status : String
  hits : List (String × HitEntry)
  consumption : List (String × CEntry)
  totals : Totals
  processedNewsIds : List String
deriving DecidableEq, Repr

/-- `updateTotals(chain)`: recompute `chain.totals` from the current maps. -/
def updateTotals (c : ChainRec) : ChainRec :=
  { c with totals := totalsOf c.hits c.consumption }

/-- One per-actor entry of the fetched chain report.  Each field models the
first present alternative of the source's coalescing chains
(`a.id ?? a.user_id ?? a.attacker_id`, `a.attacks?.total ?? a.attacks ??
a.hits`, `a.respect?.total ?? a.respect`, `a.name ?? a.username`). -/
structure Attacker where
  id : Option Int
  attacks : Option Nat
  respect : Option Nat
  name : Option String
deriving DecidableEq, Repr

/-- `String(a.id ?? a.user_id ?? a.attacker_id)` — JS stringifies a fully
absent id to `"undefined"`. -/
def attackerKey (a : Attacker) : String :=
  match a.id with
  | some n => toString n
  | none => "undefined"

/-- The `hits` rebuild loop of `loadAndSyncChain`: a fresh object filled
from the report's attackers, defaulting counts to 0 and the display name to
the id key. -/
def buildHits (attackers : List Attacker) : List (String × HitEntry) :=
  attackers.foldl (fun m a =>
    insertA m (attackerKey a)
      ⟨a.attacks.getD 0, a.respect.getD 0, a.name.getD (attackerKey a)⟩) []

/-- The chain report (`reportData.chainreport ?? reportData`). -/
structure Report where
  attackers : List Attacker
  endTs : Option Int
deriving DecidableEq, Repr

/-- One newest-first page of the faction news feed: the batch plus the
optional previous-page cursor (`_metadata.links.prev`). -/
structure Page where
  items : List RawItem
  prev : Option String
deriving DecidableEq, Repr

/-- The inner item loop of one page in `fetchAllFactionNews`: push items
until one has a non-null timestamp strictly below `chainStart`; report
whether that bound was crossed. -/
def pageScan (items : List RawItem) (chainStart : Int) :
    List RawItem × Bool :=
  match items with
  | [] => ([], false)
  | it :: rest =>
    if optLt (tsOf it) chainStart then ([], true)
    else
      let r := pageScan rest chainStart
      (it :: r.1, r.2)

/-- The `while (true)` pagination loop of `fetchAllFactionNews` over a
pre-recorded sequence of pages (page `i+1` is the page the feed serves for
page `i`'s `prev` cursor).  Returns the collected items and the number of
page requests issued. -/
def fetchAllLoop (chainStart : Int) : List Page → List RawItem × Nat
  | [] => ([], 0)
  | p :: rest =>
    let scanned := pageScan p.items chainStart
    if p.prev = none ∨ scanned.2 then (scanned.1, 1)
    else
      let more := fetchAllLoop chainStart rest
      (scanned.1 ++ more.1, more.2 + 1)

/-- `fetchAllFactionNews(apiKey, chainStart, chainEnd, processedIds)`:
paginate, then feed everything collected to `extractConsumption`. -/
def fetchAllFactionNews (pages : List Page) (chainStart chainEnd : Int)
    (processed : List String) : ConsResult × List String :=
  extractConsumption (fetchAllLoop chainStart pages).1 chainStart chainEnd
    processed

/-- The driving chain-status payload (`currentChain`).  `id` models
`currentChain.id ?? currentChain.chain_id ?? currentChain.chainId` and
`start` models `currentChain.start ?? currentChain.chain_start`. -/
structure CurrentChain where
  id : Int
  start : Int
  current : Option Int
  endTs : Option Int
deriving DecidableEq, Repr

/-- The persistence layer state: the `chains` object store (keyed by
`chainId`) and the `lastSyncTimestamp` config value. -/
structure DB where
  chains : List (Int × ChainRec)
  lastSync : Option Int
deriving DecidableEq, Repr

/-- `Set.prototype.add`: append when absent. -/
def setAdd (s : List String) (k : String) : List String :=
  if k ∈ s then s else s ++ [k]

/-- `new Set(list)`: drop duplicates, keeping first occurrences. -/
def dedupList (l : List String) : List String := l.foldl setAdd []

/-- JS truthiness of a possibly-absent number (`null`/`undefined` and `0`
are falsy). -/
def optTruthy (a : Option Int) : Bool :=
  match a with
  | some n => n ≠ 0
  | none => false

/-- The `end` bound resolved at the top of `loadAndSyncChain`:
`isActive ? now : (currentChain.end ?? now)` with
`isActive = currentChain.current != null || currentChain.end == null`. -/
def endBound (cc : CurrentChain) (now : Int) : Int :=
  if cc.current.isSome || cc.endTs.isNone then now else cc.endTs.getD now

/-- The fresh record seeded by `loadAndSyncChain` when no chain is
persisted under the id. -/
def seedChain (cc : CurrentChain) (isActive : Bool) (endB : Int) : ChainRec :=
  { chainId := cc.id
    start := cc.start
    endTs := if isActive then none else some endB
    status := if isActive then "active" else "finished"
    hits := []
    consumption := []
    totals := ⟨0, 0, 0, 0⟩
    processedNewsIds := [] }

/-- The body of `loadAndSyncChain` after both concurrent fetches have
succeeded: rebuild `hits` from the report, merge the aggregated
consumption, persist the dedup set, set `end`/`status` (`end` is `null`
when `currentChain.current` is truthy, else `report.end ?? end`; `status`
is `'finished'` exactly when the resulting `end` is truthy), recompute the
totals, then write `lastSyncTimestamp` and `saveChain(chain)`. -/
def syncCore (db : DB) (cc : CurrentChain) (report : Report)
    (pages : List Page) (now : Int) : DB × ChainRec :=
  let isActive := cc.current.isSome || cc.endTs.isNone
  let endB := endBound cc now
  let chain := (lookupA db.chains cc.id).getD (seedChain cc isActive endB)
  let processed := dedupList chain.processedNewsIds
  let fetched := fetchAllFactionNews pages cc.start endB processed
  let hits := buildHits report.attackers
  let cons2 := mergeConsumption chain.consumption fetched.1.xanax
    fetched.1.points
  let newEnd : Option Int :=
    if optTruthy cc.current then none else some (report.endTs.getD endB)
  let chain2 := updateTotals
    { chain with
        hits := hits
        consumption := cons2
        processedNewsIds := fetched.2
        endTs := newEnd
        status := if optTruthy newEnd then "finished" else "active" }
  ({ chains := insertA db.chains chain2.chainId chain2, lastSync := some now },
   chain2)

/-- `loadAndSyncChain(apiKey, currentChain)` with the two concurrent
fetches supplied as `Except` values.  A rejection of either promise makes
`Promise.all` reject before any mutation or persistence runs, so the store
is returned unchanged with the error propagated (when both fail the model
surfaces the report fetch's error; the source surfaces whichever rejection
settles first). -/
def loadAndSyncChain (db : DB) (cc : CurrentChain)
    (reportRes : Except String Report) (newsRes : Except String (List Page))
    (now : Int) : DB × Except String ChainRec :=
  match reportRes, newsRes with
  | .error e, _ => (db, .error e)
  | .ok _, .error e => (db, .error e)
  | .ok report, .ok pages =>
    let r := syncCore db cc report pages now
    (r.1, .ok r.2)

/-- A parsed consumption event, as fed to the `addXanax`/`addPoints`
aggregation closures of `extractConsumption`. -/
inductive CEvent where
  | xan (id name : String)
  | pts (id : String) (amount : Nat) (name : String)
deriving DecidableEq, Repr

/-- Apply one parsed event to the aggregator state. -/
def applyCEvent (st : ConsResult) : CEvent → ConsResult
  | .xan id name => ⟨addXanax st.xanax id name, st.points⟩
  | .pts id amount name => ⟨st.xanax, addPoints st.points id amount name⟩

/-- Fold a batch of parsed events from a given aggregator state. -/
def aggFrom (st : ConsResult) (l : List CEvent) : ConsResult :=
  l.foldl applyCEvent st

/-- Fold a batch of parsed events from the empty aggregator state. -/
def aggEvents (l : List CEvent) : ConsResult := aggFrom ⟨[], []⟩ l

/-- Is the event an item-use event for actor `id` that passes the
`addXanax` guard? -/
def isXanFor (id : String) : CEvent → Bool
  | .xan eid _ => eid ≠ "" && eid = id
  | .pts _ _ _ => false

/-- Is the event a currency event for actor `id` that passes the
`addPoints` guard? -/
def isPtsFor (id : String) : CEvent → Bool
  | .xan _ _ => false
  | .pts eid a _ => eid ≠ "" && a ≠ 0 && eid = id

/-- The amount carried by a currency event. -/
def amtOf : CEvent → Nat
  | .xan _ _ => 0
  | .pts _ a _ => a

/-- The item-use count view of the aggregator state for one actor. -/
def xcountView (st : ConsResult) (id : String) : Option Nat :=
  (lookupA st.xanax id).map (·.count)

/-- The currency total view of the aggregator state for one actor. -/
def pamountView (st : ConsResult) (id : String) : Option Nat :=
  (lookupA st.points id).map (·.amount)

/-- How one event transforms the item-use count view of one actor. -/
def xstep (id : String) (o : Option Nat) (e : CEvent) : Option Nat :=
  if isXanFor id e then some (o.getD 0 + 1) else o

/-- How one event transforms the currency total view of one actor. -/
def pstep (id : String) (o : Option Nat) (e : CEvent) : Option Nat :=
  if isPtsFor id e then some (o.getD 0 + amtOf e) else o

/-- In-range test of an item against the chain bounds, as the two `continue`
guards of `extractConsumption` leave it. -/
def inRangeB (s e : Int) (it : RawItem) : Bool :=
  !optLt (tsOf it) s && !optGt (tsOf it) e

/-- Sum of the amounts of the currency events for one actor in a batch. -/
def sumAmts (id : String) (l : List CEvent) : Nat :=
  ((l.filter (isPtsFor id)).map amtOf).sum

/-! Concrete fixtures used by the claim instances below. -/

/-- The first literal parser-case message. -/
def caseMsg1 : String := "AJMC " ++ xanaxPhrase

/-- The second literal parser-case message. -/
def caseMsg2 : String :=
  "<a href=\"profiles.php?XID=2405862\">AJMC</a> used 250000 faction points"

/-- The third literal parser-case message. -/
def caseMsg3 : String := "AJMC went to the hospital"

/-- A feed item carrying a given id, timestamp and message. -/
def mkItem (id ts : Int) (msg : String) : RawItem :=
  { id := some id, timestamp := some ts, time := none,
    news := some msg, text := none, content := none }

/-- A message whose prefix before the `" used "` marker strips to nothing. -/
def tagOnlyMsg : String := "<b> used one of the Xanax items"

/-- A bare feed item with only a timestamp (and id doubling as both). -/
def bareItem (t : Int) : RawItem :=
  { id := some t, timestamp := some t, time := none,
    news := none, text := none, content := none }

/-- Page P1 of the pagination instance (timestamps 100–90). -/
def pageP1 : Page :=
  { items := [bareItem 100, bareItem 95, bareItem 90], prev := some "c2" }

/-- Page P2 of the pagination instance (timestamps 89–80). -/
def pageP2 : Page :=
  { items := [bareItem 89, bareItem 85, bareItem 84, bareItem 80],
    prev := some "c3" }

/-- Page P3 of the pagination instance (timestamps 79–70). -/
def pageP3 : Page :=
  { items := [bareItem 79, bareItem 70], prev := none }

/-- A persisted record already in the finished state. -/
def finishedChain : ChainRec :=
  { chainId := 7, start := 0, endTs := some 1000, status := "finished",
    hits := [], consumption := [], totals := ⟨0, 0, 0, 0⟩,
    processedNewsIds := [] }

/-- A store holding only the finished chain 7. -/
def dbFinished : DB := { chains := [(7, finishedChain)], lastSync := none }

/-- A driving payload that marks chain 7 as currently in progress. -/
def ccInProgress : CurrentChain :=
  { id := 7, start := 0, current := some 5, endTs := none }

/-- An empty chain report. -/
def emptyReport : Report := { attackers := [], endTs := none }

/-- A driving payload for a finished chain 1. -/
def ccDone : CurrentChain :=
  { id := 1, start := 0, current := none, endTs := some 500 }

/-- First report of the hits-replacement instance: A at 10 hits, B at 3. -/
def reportFirst : Report :=
  { attackers := [⟨some 1, some 10, some 100, some "A"⟩,
                  ⟨some 2, some 3, some 30, some "B"⟩],
    endTs := some 400 }

/-- Second report of the hits-replacement instance: only A, at 15 hits. -/
def reportSecond : Report :=
  { attackers := [⟨some 1, some 15, some 150, some "A"⟩], endTs := some 400 }

/-- The empty store. -/
def dbEmpty : DB := { chains := [], lastSync := none }

/-- A persisted chain 9 with existing per-actor consumption. -/
def consChain : ChainRec :=
  { chainId := 9, start := 0, endTs := some 100, status := "finished",
    hits := [], consumption := [("A", ⟨1, 2, "A"⟩)],
    totals := ⟨0, 0, 1, 2⟩, processedNewsIds := [] }

/-- A store holding only chain 9. -/
def dbCons : DB := { chains := [(9, consChain)], lastSync := none }

/-- A driving payload for the finished chain 9. -/
def ccNine : CurrentChain :=
  { id := 9, start := 0, current := none, endTs := some 100 }


/-! Helper lemmas about the association-list operations. -/

theorem lookupA_insertA {κ α : Type} [DecidableEq κ] (m : List (κ × α))
    (key k : κ) (v : α) :
    lookupA (insertA m key v) k = if k = key then some v else lookupA m k := by
  induction m with
  | nil => simp [insertA, lookupA, eq_comm]
  | cons hd tl ih =>
    obtain ⟨k0, v0⟩ := hd
    by_cases h0 : k0 = key
    · subst h0
      by_cases hk : k0 = k
      · subst hk; simp [insertA, lookupA]
      · simp [insertA, lookupA, hk, Ne.symm hk]
    · by_cases hk : k0 = k
      · subst hk
        simp [insertA, lookupA, h0, Ne.symm h0]
      · simp [insertA, lookupA, h0, hk, ih]

/-! Helper lemmas about the `extractConsumption` loop. -/

theorem extractStep_proc2 (s e : Int) (st : ConsResult × List String)
    (it : RawItem) :
    (extractStep s e st it).2 = st.2 ∨
    (extractStep s e st it).2 = st.2 ++ [itemKey it] := by
  by_cases h1 : optLt (tsOf it) s = true
  · left; simp [extractStep, h1]
  · by_cases h2 : optGt (tsOf it) e = true
    · left; simp [extractStep, h1, h2]
    · by_cases hk : itemKey it ∈ st.2
      · left; simp [extractStep, h1, h2, hk]
      · right
        cases hm : extractMemberIdAndName (textOf it) <;>
          simp [extractStep, h1, h2, hk, hm]

theorem mem_extractStep_proc (s e : Int) (st : ConsResult × List String)
    (it : RawItem) (k : String) (h : k ∈ st.2) :
    k ∈ (extractStep s e st it).2 := by
  rcases extractStep_proc2 s e st it with h2 | h2 <;> rw [h2] <;> simp [h]

theorem extractStep_key_mem (s e : Int) (st : ConsResult × List String)
    (it : RawItem) (h : inRangeB s e it = true) :
    itemKey it ∈ (extractStep s e st it).2 := by
  simp only [inRangeB, Bool.and_eq_true, Bool.not_eq_true'] at h
  obtain ⟨h1, h2⟩ := h
  by_cases hk : itemKey it ∈ st.2
  · exact mem_extractStep_proc s e st it _ hk
  · cases hm : extractMemberIdAndName (textOf it) <;>
      simp [extractStep, h1, h2, hk, hm]

theorem extractStep_eq_self (s e : Int) (st : ConsResult × List String)
    (it : RawItem) (h : inRangeB s e it = true → itemKey it ∈ st.2) :
    extractStep s e st it = st := by
  by_cases h1 : optLt (tsOf it) s = true
  · simp [extractStep, h1]
  · by_cases h2 : optGt (tsOf it) e = true
    · simp [extractStep, h1, h2]
    · rw [Bool.not_eq_true] at h1 h2
      have hk : itemKey it ∈ st.2 := h (by simp [inRangeB, h1, h2])
      simp [extractStep, h1, h2, hk]

theorem mem_extractLoop_proc (s e : Int) (items : List RawItem) :
    ∀ (st : ConsResult × List String) (k : String), k ∈ st.2 →
      k ∈ (extractLoop s e items st).2 := by
  induction items with
  | nil => intro st k h; exact h
  | cons it rest ih =>
    intro st k h
    exact ih _ _ (mem_extractStep_proc s e st it k h)

theorem extractLoop_key_mem (s e : Int) (items : List RawItem) :
    ∀ (st : ConsResult × List String) (it : RawItem), it ∈ items →
      inRangeB s e it = true → itemKey it ∈ (extractLoop s e items st).2 := by
  induction items with
  | nil => intro st it h; simp at h
  | cons hd rest ih =>
    intro st it hmem hr
    rcases List.mem_cons.mp hmem with h | h
    · subst h
      exact mem_extractLoop_proc s e rest _ _
        (extractStep_key_mem s e st it hr)
    · exact ih _ it h hr

theorem extractLoop_eq_self (s e : Int) (items : List RawItem) :
    ∀ (st : ConsResult × List String),
      (∀ it ∈ items, inRangeB s e it = true → itemKey it ∈ st.2) →
      extractLoop s e items st = st := by
  induction items with
  | nil => intro st _; rfl
  | cons hd rest ih =>
    intro st h
    have hstep : extractStep s e st hd = st :=
      extractStep_eq_self s e st hd (h hd (by simp))
    show extractLoop s e rest (extractStep s e st hd) = st
    rw [hstep]
    exact ih st (fun it hm => h it (by simp [hm]))

/-- C1: Dedup idempotence — a second `extractConsumption` pass over the
same items with the dedup set produced by the first pass yields empty
additional consumption and leaves the dedup set unchanged; merging that
empty second-pass result changes no per-actor consumption totals; and an
item whose id is already in the dedup set never contributes again. -/
theorem dedup_idempotence (items : List RawItem) (s e : Int)
    (p : List String) (cons : List (String × CEntry)) :
    extractConsumption items s e (extractConsumption items s e p).2 =
      (⟨[], []⟩, (extractConsumption items s e p).2)
    ∧ mergeConsumption
        (mergeConsumption cons (extractConsumption items s e p).1.xanax
          (extractConsumption items s e p).1.points)
        (extractConsumption items s e (extractConsumption items s e p).2).1.xanax
        (extractConsumption items s e (extractConsumption items s e p).2).1.points
      = mergeConsumption cons (extractConsumption items s e p).1.xanax
          (extractConsumption items s e p).1.points
    ∧ (∀ it : RawItem, itemKey it ∈ p →
        extractConsumption (it :: items) s e p =
          extractConsumption items s e p) := by
  have hall : ∀ it ∈ items, inRangeB s e it = true →
      itemKey it ∈ (extractConsumption items s e p).2 :=
    fun it hm hr => extractLoop_key_mem s e items _ it hm hr
  have hsecond : extractConsumption items s e
      (extractConsumption items s e p).2 =
      (⟨[], []⟩, (extractConsumption items s e p).2) :=
    extractLoop_eq_self s e items _ (fun it hm hr => hall it hm hr)
  refine ⟨hsecond, ?_, ?_⟩
  · rw [hsecond]
    rfl
  · intro it hk
    show extractLoop s e items (extractStep s e (⟨[], []⟩, p) it) = _
    rw [extractStep_eq_self s e _ it (fun _ => hk)]
    rfl

/-- Witness for C1 at a concrete input: the second pass over the parsed
xanax item is empty, and an item whose key is already in the dedup set is
skipped entirely. -/
theorem dedup_idempotence_witness :
    extractConsumption [mkItem 1 5 caseMsg1] 0 10
        (extractConsumption [mkItem 1 5 caseMsg1] 0 10 []).2 =
      (⟨[], []⟩, (extractConsumption [mkItem 1 5 caseMsg1] 0 10 []).2)
    ∧ extractConsumption [mkItem 1 5 caseMsg1] 0 10 ["1"] =
        extractConsumption [] 0 10 ["1"] := by
  refine ⟨(dedup_idempotence [mkItem 1 5 caseMsg1] 0 10 [] []).1, ?_⟩
  exact (dedup_idempotence [] 0 10 ["1"] []).2.2 (mkItem 1 5 caseMsg1)
    (by decide)

/-- C3: the literal parser cases — the xanax message yields one item-use
for actor key "AJMC"; the profile-link points message yields one
currency-spend of 250000 for actor id "2405862" with display name "AJMC";
the hospital message yields no event; and a zero parsed quantity is never
added. -/
theorem parser_literal_cases :
    extractConsumption [mkItem 1 5 caseMsg1] 0 10 [] =
      (⟨[("AJMC", ⟨1, "AJMC"⟩)], []⟩, ["1"])
    ∧ extractConsumption [mkItem 2 5 caseMsg2] 0 10 [] =
      (⟨[], [("2405862", ⟨250000, "AJMC"⟩)]⟩, ["2"])
    ∧ extractConsumption [mkItem 3 5 caseMsg3] 0 10 [] =
      (⟨[], []⟩, ["3"])
    ∧ ∀ (m : List (String × PEntry)) (id name : String),
        addPoints m id 0 name = m := by
  refine ⟨by decide, by decide, by decide, ?_⟩
  intro m id name
  simp [addPoints]

/-- C4 counterexample: the one-directionality fails on the code — with a
finished chain 7 persisted (status "finished", end 1000), a later sync
whose driving payload marks the chain current resets the record to status
"active" with a null end. -/
theorem status_transition_cex :
    finishedChain.status = "finished"
    ∧ finishedChain.endTs = some 1000
    ∧ lookupA dbFinished.chains ccInProgress.id = some finishedChain
    ∧ (syncCore dbFinished ccInProgress emptyReport [] 2000).2.status =
        "active"
    ∧ (syncCore dbFinished ccInProgress emptyReport [] 2000).2.endTs =
        none := by
  exact ⟨rfl, rfl, by decide, by decide, by decide⟩

/-- C4 amended: within a single sync, when the driving payload's `current`
field is truthy the record's end becomes null and its status "active";
otherwise the end is set to the report's end marker if present, else the
resolved end bound, and the status is "finished" exactly when that end
value is non-zero.  The transition is not one-directional: a later sync
driven by an in-progress payload resets a finished record (see the
counterexample). -/
theorem status_transition_amended (db : DB) (cc : CurrentChain)
    (rep : Report) (pages : List Page) (now : Int) :
    (optTruthy cc.current = true →
      (syncCore db cc rep pages now).2.endTs = none ∧
      (syncCore db cc rep pages now).2.status = "active")
    ∧ (optTruthy cc.current = false →
      (syncCore db cc rep pages now).2.endTs =
        some (rep.endTs.getD (endBound cc now)) ∧
      (syncCore db cc rep pages now).2.status =
        (if rep.endTs.getD (endBound cc now) ≠ 0 then "finished"
         else "active")) := by
  constructor
  · intro h
    constructor
    · simp only [syncCore, updateTotals]
      rw [h]
      rfl
    · simp only [syncCore, updateTotals]
      rw [h]
      rfl
  · intro h
    constructor
    · simp only [syncCore, updateTotals]
      rw [h]
      rfl
    · simp only [syncCore, updateTotals]
      rw [h]
      by_cases hz : rep.endTs.getD (endBound cc now) = 0
      · simp [optTruthy, hz]
      · simp [optTruthy, hz]

/-- Witness for C4's amended claim at a concrete input: the in-progress
payload branch. -/
theorem status_transition_amended_witness :
    (syncCore dbFinished ccInProgress emptyReport [] 2000).2.endTs = none ∧
    (syncCore dbFinished ccInProgress emptyReport [] 2000).2.status =
      "active" :=
  (status_transition_amended dbFinished ccInProgress emptyReport [] 2000).1
    (by decide)

/-- C5: Hits replacement — on every sync the record's hits mapping is
exactly the mapping rebuilt from the freshly fetched report (never merged
with previous values); concretely, a sync reporting A at 10 hits followed
by one reporting A at 15 leaves 15, and the actor B present only in the
first report is gone. -/
theorem hits_replacement :
    (∀ (db : DB) (cc : CurrentChain) (rep : Report) (pages : List Page)
       (now : Int),
      (syncCore db cc rep pages now).2.hits = buildHits rep.attackers)
    ∧ (syncCore (syncCore dbEmpty ccDone reportFirst [] 600).1 ccDone
        reportSecond [] 700).2.hits = [("1", ⟨15, 150, "A"⟩)]
    ∧ lookupA (syncCore (syncCore dbEmpty ccDone reportFirst [] 600).1 ccDone
        reportSecond [] 700).2.hits "2" = none := by
  refine ⟨fun db cc rep pages now => rfl, by decide, by decide⟩

/-- C7: Totals derivation — after every sync the record's totals equal the
fold of its current hits and consumption maps; concretely the fold of
hits {A: 5 hits, 50 respect} and consumption {A: 1 xanax, 1000 points} is
{5, 50, 1, 1000}. -/
theorem totals_derivation :
    (∀ (db : DB) (cc : CurrentChain) (rep : Report) (pages : List Page)
       (now : Int),
      (syncCore db cc rep pages now).2.totals =
        totalsOf (syncCore db cc rep pages now).2.hits
          (syncCore db cc rep pages now).2.consumption)
    ∧ totalsOf [("A", ⟨5, 50, "A"⟩)] [("A", ⟨1, 1000, "A"⟩)] =
        ⟨5, 50, 1, 1000⟩ := by
  exact ⟨fun db cc rep pages now => rfl, by decide⟩

/-- C8: Sync atomicity on fetch failure — if either concurrent fetch
fails, `loadAndSyncChain` propagates the error and the persistence layer
state (chains store and last-sync timestamp, hence also the persisted
dedup set) is returned unchanged; persistence only happens when both
fetches succeed. -/
theorem sync_atomicity_on_failure :
    (∀ (db : DB) (cc : CurrentChain) (now : Int) (e : String)
       (newsRes : Except String (List Page)),
      loadAndSyncChain db cc (.error e) newsRes now = (db, .error e))
    ∧ (∀ (db : DB) (cc : CurrentChain) (now : Int) (e : String)
       (rep : Report),
      loadAndSyncChain db cc (.ok rep) (.error e) now = (db, .error e)) := by
  constructor
  · intro db cc now e newsRes
    cases newsRes <;> rfl
  · intro db cc now e rep
    rfl

/-! Helper lemmas about the `mergeConsumption` folds. -/

theorem mergeXStep_mono (c : List (String × CEntry)) (kv : String × XEntry)
    (id : String) (en : CEntry) (h : lookupA c id = some en) :
    ∃ en2, lookupA (mergeXStep c kv) id = some en2 ∧
      en.xanax ≤ en2.xanax ∧ en.points ≤ en2.points := by
  simp only [mergeXStep]
  rw [lookupA_insertA]
  by_cases hk : id = kv.1
  · rw [if_pos hk, ← hk, h]
    exact ⟨_, rfl, Nat.le_add_right _ _, le_refl _⟩
  · rw [if_neg hk]
    exact ⟨en, h, le_refl _, le_refl _⟩

theorem mergePStep_mono (c : List (String × CEntry)) (kv : String × PEntry)
    (id : String) (en : CEntry) (h : lookupA c id = some en) :
    ∃ en2, lookupA (mergePStep c kv) id = some en2 ∧
      en.xanax ≤ en2.xanax ∧ en.points ≤ en2.points := by
  simp only [mergePStep]
  rw [lookupA_insertA]
  by_cases hk : id = kv.1
  · rw [if_pos hk, ← hk, h]
    exact ⟨_, rfl, le_refl _, Nat.le_add_right _ _⟩
  · rw [if_neg hk]
    exact ⟨en, h, le_refl _, le_refl _⟩

theorem mergeXFold_mono (x : List (String × XEntry)) :
    ∀ (c : List (String × CEntry)) (id : String) (en : CEntry),
      lookupA c id = some en →
      ∃ en2, lookupA (x.foldl mergeXStep c) id = some en2 ∧
        en.xanax ≤ en2.xanax ∧ en.points ≤ en2.points := by
  induction x with
  | nil => intro c id en h; exact ⟨en, h, le_refl _, le_refl _⟩
  | cons kv rest ih =>
    intro c id en h
    obtain ⟨e1, h1, hx1, hp1⟩ := mergeXStep_mono c kv id en h
    obtain ⟨e2, h2, hx2, hp2⟩ := ih (mergeXStep c kv) id e1 h1
    exact ⟨e2, h2, le_trans hx1 hx2, le_trans hp1 hp2⟩

theorem mergePFold_mono (p : List (String × PEntry)) :
    ∀ (c : List (String × CEntry)) (id : String) (en : CEntry),
      lookupA c id = some en →
      ∃ en2, lookupA (p.foldl mergePStep c) id = some en2 ∧
        en.xanax ≤ en2.xanax ∧ en.points ≤ en2.points := by
  induction p with
  | nil => intro c id en h; exact ⟨en, h, le_refl _, le_refl _⟩
  | cons kv rest ih =>
    intro c id en h
    obtain ⟨e1, h1, hx1, hp1⟩ := mergePStep_mono c kv id en h
    obtain ⟨e2, h2, hx2, hp2⟩ := ih (mergePStep c kv) id e1 h1
    exact ⟨e2, h2, le_trans hx1 hx2, le_trans hp1 hp2⟩

/-- C6: Consumption monotonicity — `mergeConsumption` never removes a
per-actor entry and never decreases its xanax count or points amount
(additions are `Nat`, hence non-negative); consequently, across a sync of
a persisted chain, every existing per-actor consumption entry survives
with values at least as large, and the map is never replaced wholesale. -/
theorem consumption_monotonicity :
    (∀ (cons : List (String × CEntry)) (x : List (String × XEntry))
       (p : List (String × PEntry)) (id : String) (en : CEntry),
      lookupA cons id = some en →
      ∃ en2, lookupA (mergeConsumption cons x p) id = some en2 ∧
        en.xanax ≤ en2.xanax ∧ en.points ≤ en2.points)
    ∧ (∀ (db : DB) (cc : CurrentChain) (rep : Report) (pages : List Page)
        (now : Int) (c0 : ChainRec),
      lookupA db.chains cc.id = some c0 →
      ∀ (id : String) (en : CEntry), lookupA c0.consumption id = some en →
      ∃ en2,
        lookupA (syncCore db cc rep pages now).2.consumption id = some en2 ∧
        en.xanax ≤ en2.xanax ∧ en.points ≤ en2.points) := by
  have hmerge : ∀ (cons : List (String × CEntry)) (x : List (String × XEntry))
      (p : List (String × PEntry)) (id : String) (en : CEntry),
      lookupA cons id = some en →
      ∃ en2, lookupA (mergeConsumption cons x p) id = some en2 ∧
        en.xanax ≤ en2.xanax ∧ en.points ≤ en2.points := by
    intro cons x p id en h
    obtain ⟨e1, h1, hx1, hp1⟩ := mergeXFold_mono x cons id en h
    obtain ⟨e2, h2, hx2, hp2⟩ := mergePFold_mono p _ id e1 h1
    exact ⟨e2, h2, le_trans hx1 hx2, le_trans hp1 hp2⟩
  refine ⟨hmerge, ?_⟩
  intro db cc rep pages now c0 h0 id en hen
  have hc : (syncCore db cc rep pages now).2.consumption =
      mergeConsumption c0.consumption
        (fetchAllFactionNews pages cc.start (endBound cc now)
          (dedupList c0.processedNewsIds)).1.xanax
        (fetchAllFactionNews pages cc.start (endBound cc now)
          (dedupList c0.processedNewsIds)).1.points := by
    simp only [syncCore, updateTotals]
    rw [h0]
    simp
  rw [hc]
  exact hmerge _ _ _ id en hen

/-- Witness for C6 at a concrete input: chain 9's existing entry for actor
"A" survives a sync with values at least as large. -/
theorem consumption_monotonicity_witness :
    ∃ en2,
      lookupA (syncCore dbCons ccNine emptyReport [] 600).2.consumption "A" =
        some en2 ∧ 1 ≤ en2.xanax ∧ 2 ≤ en2.points :=
  consumption_monotonicity.2 dbCons ccNine emptyReport [] 600 consChain
    (by decide) "A" ⟨1, 2, "A"⟩ (by decide)

/-! Helper lemmas about the pagination loop. -/

theorem pageScan_fst (items : List RawItem) (s : Int) :
    (pageScan items s).1 =
      items.takeWhile (fun it => !optLt (tsOf it) s) := by
  induction items with
  | nil => rfl
  | cons it rest ih =>
    by_cases h : optLt (tsOf it) s = true
    · simp [pageScan, List.takeWhile_cons, h]
    · rw [Bool.not_eq_true] at h
      simp [pageScan, List.takeWhile_cons, h, ih]

theorem pageScan_snd (items : List RawItem) (s : Int) :
    (pageScan items s).2 = items.any (fun it => optLt (tsOf it) s) := by
  induction items with
  | nil => rfl
  | cons it rest ih =>
    by_cases h : optLt (tsOf it) s = true
    · simp [pageScan, h]
    · rw [Bool.not_eq_true] at h
      simp [pageScan, h, ih]

/-- C2: Pagination stop condition — within a page the loop keeps exactly
the items preceding the first one whose (non-null) timestamp is strictly
below the start bound, and it reports whether such an item was seen; on a
page that crossed the bound, or that carries no previous-page cursor, the
paginator returns that page's kept items and issues no further request;
on the concrete instance P1 (100–90), P2 (89–80), P3 (79–70) with start
bound 85, it collects all of P1 plus the items of P2 with timestamp ≥ 85
and requests only two pages, never P3. -/
theorem pagination_stop :
    (∀ (items : List RawItem) (s : Int),
      (pageScan items s).1 =
        items.takeWhile (fun it => !optLt (tsOf it) s)
      ∧ (pageScan items s).2 = items.any (fun it => optLt (tsOf it) s))
    ∧ (∀ (s : Int) (p : Page) (rest : List Page),
      (pageScan p.items s).2 = true →
      fetchAllLoop s (p :: rest) = ((pageScan p.items s).1, 1))
    ∧ (∀ (s : Int) (p : Page) (rest : List Page),
      p.prev = none →
      fetchAllLoop s (p :: rest) = ((pageScan p.items s).1, 1))
    ∧ fetchAllLoop 85 [pageP1, pageP2, pageP3] =
        ([bareItem 100, bareItem 95, bareItem 90, bareItem 89, bareItem 85],
         2) := by
  refine ⟨fun items s => ⟨pageScan_fst items s, pageScan_snd items s⟩,
    ?_, ?_, by decide⟩
  · intro s p rest h
    simp [fetchAllLoop, h]
  · intro s p rest h
    simp [fetchAllLoop, h]

/-- Witness for C2 at concrete inputs: a page that crosses the start bound
stops pagination, and so does a page without a previous cursor. -/
theorem pagination_stop_witness :
    fetchAllLoop 85 [pageP2] = ((pageScan pageP2.items 85).1, 1)
    ∧ fetchAllLoop 85 [pageP3] = ((pageScan pageP3.items 85).1, 1) :=
  ⟨pagination_stop.2.1 85 pageP2 [] (by decide),
   pagination_stop.2.2.1 85 pageP3 [] (by decide)⟩

/-! Helper lemmas about the consumption aggregator. -/

theorem xcountView_apply (st : ConsResult) (e : CEvent) (id : String) :
    xcountView (applyCEvent st e) id = xstep id (xcountView st id) e := by
  cases e with
  | xan eid name =>
    by_cases he : eid = ""
    · subst he
      simp [applyCEvent, xcountView, xstep, isXanFor, addXanax]
    · by_cases hid : eid = id
      · subst hid
        simp only [applyCEvent, xcountView, xstep, isXanFor, addXanax,
          if_neg he]
        rw [lookupA_insertA]
        cases hl : lookupA st.xanax eid <;> simp [hl, he]
      · simp only [applyCEvent, xcountView, xstep, isXanFor, addXanax,
          if_neg he]
        rw [lookupA_insertA, if_neg (fun h => hid h.symm)]
        simp [hid, he]
  | pts eid a name =>
    simp [applyCEvent, xcountView, xstep, isXanFor]

theorem pamountView_apply (st : ConsResult) (e : CEvent) (id : String) :
    pamountView (applyCEvent st e) id = pstep id (pamountView st id) e := by
  cases e with
  | xan eid name =>
    simp [applyCEvent, pamountView, pstep, isPtsFor]
  | pts eid a name =>
    by_cases he : eid = ""
    · subst he
      simp [applyCEvent, pamountView, pstep, isPtsFor, addPoints]
    · by_cases ha : a = 0
      · subst ha
        simp [applyCEvent, pamountView, pstep, isPtsFor, addPoints, he]
      · by_cases hid : eid = id
        · subst hid
          simp only [applyCEvent, pamountView, pstep, isPtsFor, addPoints,
            amtOf]
          rw [if_neg (by simp [he, ha])]
          rw [lookupA_insertA]
          cases hl : lookupA st.points eid <;> simp [hl, he, ha]
        · simp only [applyCEvent, pamountView, pstep, isPtsFor, addPoints,
            amtOf]
          rw [if_neg (by simp [he, ha])]
          rw [lookupA_insertA, if_neg (fun h => hid h.symm)]
          simp [hid, he, ha]

theorem xcountView_aggFrom (l : List CEvent) :
    ∀ (st : ConsResult) (id : String),
      xcountView (aggFrom st l) id =
        List.foldl (xstep id) (xcountView st id) l := by
  induction l with
  | nil => intro st id; rfl
  | cons e rest ih =>
    intro st id
    calc xcountView (aggFrom (applyCEvent st e) rest) id
        = List.foldl (xstep id) (xcountView (applyCEvent st e) id) rest :=
          ih _ _
      _ = List.foldl (xstep id) (xstep id (xcountView st id) e) rest := by
          rw [xcountView_apply]
      _ = List.foldl (xstep id) (xcountView st id) (e :: rest) := rfl

theorem pamountView_aggFrom (l : List CEvent) :
    ∀ (st : ConsResult) (id : String),
      pamountView (aggFrom st l) id =
        List.foldl (pstep id) (pamountView st id) l := by
  induction l with
  | nil => intro st id; rfl
  | cons e rest ih =>
    intro st id
    calc pamountView (aggFrom (applyCEvent st e) rest) id
        = List.foldl (pstep id) (pamountView (applyCEvent st e) id) rest :=
          ih _ _
      _ = List.foldl (pstep id) (pstep id (pamountView st id) e) rest := by
          rw [pamountView_apply]
      _ = List.foldl (pstep id) (pamountView st id) (e :: rest) := rfl

theorem xstep_foldl (id : String) (l : List CEvent) :
    ∀ (o : Option Nat),
      List.foldl (xstep id) o l =
        (if l.countP (isXanFor id) = 0 then o
         else some (o.getD 0 + l.countP (isXanFor id))) := by
  induction l with
  | nil => intro o; simp
  | cons e rest ih =>
    intro o
    by_cases he : isXanFor id e = true
    · rw [List.foldl_cons, show xstep id o e = some (o.getD 0 + 1) from by
        simp [xstep, he], ih]
      rw [List.countP_cons, if_pos he]
      by_cases hz : rest.countP (isXanFor id) = 0
      · simp [hz]
      · simp only [hz, if_false]
        rw [if_neg (by omega)]
        simp only [Option.getD_some, Option.some.injEq]
        omega
    · rw [List.foldl_cons, show xstep id o e = o from by simp [xstep, he], ih]
      rw [List.countP_cons, if_neg he]
      simp

theorem sumAmts_cons (id : String) (e : CEvent) (rest : List CEvent) :
    sumAmts id (e :: rest) =
      (if isPtsFor id e = true then amtOf e else 0) + sumAmts id rest := by
  by_cases he : isPtsFor id e = true
  · simp [sumAmts, List.filter_cons, he]
  · simp [sumAmts, List.filter_cons, he]

theorem countP_zero_sumAmts (id : String) (l : List CEvent)
    (h : l.countP (isPtsFor id) = 0) : sumAmts id l = 0 := by
  have : (l.filter (isPtsFor id)).length = 0 := by
    rw [← List.countP_eq_length_filter]
    exact h
  rw [List.length_eq_zero] at this
  simp [sumAmts, this]

theorem pstep_foldl (id : String) (l : List CEvent) :
    ∀ (o : Option Nat),
      List.foldl (pstep id) o l =
        (if l.countP (isPtsFor id) = 0 then o
         else some (o.getD 0 + sumAmts id l)) := by
  induction l with
  | nil => intro o; simp
  | cons e rest ih =>
    intro o
    by_cases he : isPtsFor id e = true
    · rw [List.foldl_cons, show pstep id o e = some (o.getD 0 + amtOf e) from
        by simp [pstep, he], ih]
      rw [List.countP_cons, if_pos he, sumAmts_cons, if_pos he]
      by_cases hz : rest.countP (isPtsFor id) = 0
      · rw [if_pos hz, if_neg (by omega)]
        rw [countP_zero_sumAmts id rest hz]
        simp
      · rw [if_neg hz, if_neg (by omega)]
        simp only [Option.getD_some, Option.some.injEq]
        omega
    · rw [List.foldl_cons, show pstep id o e = o from by simp [pstep, he], ih]
      rw [List.countP_cons, if_neg he, sumAmts_cons, if_neg he]
      simp

/-- C9 counterexample: the display-name half of the claim fails — two
item-use events for the same actor with different names produce different
per-actor display names under the two orders of a permutation (the fold
keeps the last truthy name seen). -/
theorem aggregator_name_order_cex :
    [CEvent.xan "1" "A", CEvent.xan "1" "B"].Perm
      [CEvent.xan "1" "B", CEvent.xan "1" "A"]
    ∧ (lookupA (aggEvents [CEvent.xan "1" "A", CEvent.xan "1" "B"]).xanax
        "1").map XEntry.name = some "B"
    ∧ (lookupA (aggEvents [CEvent.xan "1" "B", CEvent.xan "1" "A"]).xanax
        "1").map XEntry.name = some "A" := by
  refine ⟨List.Perm.swap _ _ _, by decide, by decide⟩

/-- C9 amended: folding parsed events through the aggregation closures is
order-insensitive for the per-actor item-use counts and currency totals
(including entry existence), and it is purely additive — applying one more
event never decreases an existing actor's count or total.  Per-actor
display names are not order-insensitive (each entry keeps the last truthy
name seen, see the counterexample). -/
theorem aggregator_order_invariant :
    (∀ (l1 l2 : List CEvent), l1.Perm l2 → ∀ (id : String),
      xcountView (aggEvents l1) id = xcountView (aggEvents l2) id
      ∧ pamountView (aggEvents l1) id = pamountView (aggEvents l2) id)
    ∧ (∀ (st : ConsResult) (e : CEvent) (id : String) (c : Nat),
      xcountView st id = some c →
      ∃ c2, xcountView (applyCEvent st e) id = some c2 ∧ c ≤ c2)
    ∧ (∀ (st : ConsResult) (e : CEvent) (id : String) (c : Nat),
      pamountView st id = some c →
      ∃ c2, pamountView (applyCEvent st e) id = some c2 ∧ c ≤ c2) := by
  refine ⟨?_, ?_, ?_⟩
  · intro l1 l2 hperm id
    have hcx : l1.countP (isXanFor id) = l2.countP (isXanFor id) :=
      hperm.countP_eq _
    have hcp : l1.countP (isPtsFor id) = l2.countP (isPtsFor id) :=
      hperm.countP_eq _
    have hsum : sumAmts id l1 = sumAmts id l2 :=
      ((hperm.filter _).map _).sum_eq
    constructor
    · rw [show aggEvents l1 = aggFrom ⟨[], []⟩ l1 from rfl,
        show aggEvents l2 = aggFrom ⟨[], []⟩ l2 from rfl,
        xcountView_aggFrom, xcountView_aggFrom, xstep_foldl, xstep_foldl,
        hcx]
    · rw [show aggEvents l1 = aggFrom ⟨[], []⟩ l1 from rfl,
        show aggEvents l2 = aggFrom ⟨[], []⟩ l2 from rfl,
        pamountView_aggFrom, pamountView_aggFrom, pstep_foldl, pstep_foldl,
        hcp, hsum]
  · intro st e id c h
    rw [xcountView_apply]
    by_cases he : isXanFor id e = true
    · exact ⟨c + 1, by simp [xstep, he, h], Nat.le_succ c⟩
    · exact ⟨c, by simp [xstep, he, h], le_refl c⟩
  · intro st e id c h
    rw [pamountView_apply]
    by_cases he : isPtsFor id e = true
    · exact ⟨c + amtOf e, by simp [pstep, he, h], Nat.le_add_right c _⟩
    · exact ⟨c, by simp [pstep, he, h], le_refl c⟩

/-- Witness for C9's amended claim at concrete inputs: counts agree on a
two-element permutation, and one more event keeps an existing count. -/
theorem aggregator_order_invariant_witness :
    (xcountView (aggEvents [CEvent.xan "1" "A", CEvent.xan "1" "B"]) "1" =
      xcountView (aggEvents [CEvent.xan "1" "B", CEvent.xan "1" "A"]) "1")
    ∧ ∃ c2,
      xcountView (applyCEvent ⟨[("1", ⟨2, "A"⟩)], []⟩ (CEvent.xan "1" "B"))
        "1" = some c2 ∧ 2 ≤ c2 :=
  ⟨(aggregator_order_invariant.1 _ _ (List.Perm.swap _ _ _) "1").1,
   aggregator_order_invariant.2.1 ⟨[("1", ⟨2, "A"⟩)], []⟩
     (CEvent.xan "1" "B") "1" 2 (by decide)⟩

/-! Helper lemmas about the member-name fallback. -/

theorem wsTokensAux_ne_nil (l : List Char) :
    ∀ (acc t : List Char), t ∈ wsTokensAux acc l → t ≠ [] := by
  induction l with
  | nil =>
    intro acc t ht
    simp only [wsTokensAux] at ht
    by_cases ha : acc.isEmpty
    · rw [if_pos ha] at ht
      simp at ht
    · rw [if_neg ha] at ht
      simp at ht
      subst ht
      intro hcon
      rw [List.reverse_eq_nil_iff] at hcon
      exact ha (by simp [hcon])
  | cons c rest ih =>
    intro acc t ht
    simp only [wsTokensAux] at ht
    by_cases hs : jsIsSpace c = true
    · rw [if_pos hs] at ht
      by_cases ha : acc.isEmpty
      · rw [if_pos ha] at ht
        exact ih [] t ht
      · rw [if_neg ha] at ht
        rcases List.mem_cons.mp ht with h | h
        · subst h
          intro hcon
          rw [List.reverse_eq_nil_iff] at hcon
          exact ha (by simp [hcon])
        · exact ih [] t h
    · rw [if_neg hs] at ht
      exact ih (c :: acc) t ht

theorem extractMemberName_fallback_ne (text : String)
    (h : idxOfSub usedMarker text.data = none ∨
         idxOfSub usedMarker text.data = some 0) :
    extractMemberName text ≠ "" := by
  have hfb : extractMemberName text =
      (match wsTokens (stripTags [' '] (trimChars text.data)) with
       | t :: _ => String.mk t
       | [] => "Unknown") := by
    simp only [extractMemberName]
    rcases h with h | h
    · rw [h]
    · rw [h]
      simp
  rw [hfb]
  cases htok : wsTokens (stripTags [' '] (trimChars text.data)) with
  | nil => decide
  | cons t ts =>
    have hne : t ≠ [] := by
      apply wsTokensAux_ne_nil (stripTags [' '] (trimChars text.data)) [] t
      rw [show wsTokensAux [] (stripTags [' '] (trimChars text.data)) =
        wsTokens (stripTags [' '] (trimChars text.data)) from rfl, htok]
      exact List.mem_cons_self t ts
    show String.mk t ≠ ""
    intro hcon
    exact hne (by simpa using congrArg String.data hcon)

/-- C10 counterexample: the parser is not total — for a message whose text
before the `" used "` marker is markup only, `extractMemberName` returns
the empty string and `extractMemberIdAndName` returns `null`, so the
actor-skip branch of `extractConsumption` is reached (the item is still
marked processed but attributed to nobody). -/
theorem parser_totality_cex :
    extractMemberIdAndName tagOnlyMsg = none
    ∧ extractMemberName tagOnlyMsg = ""
    ∧ extractConsumption [mkItem 4 5 tagOnlyMsg] 0 10 [] =
        (⟨[], []⟩, ["4"]) := by
  exact ⟨by decide, by decide, by decide⟩

/-- C10 amended: `extractMemberName` is non-empty (ending in the "Unknown"
placeholder) whenever the `" used "` marker does not occur at a positive
index, and in that case `extractMemberIdAndName` is non-null; the marker
branch can strip to the empty string (see the counterexample), making the
skip branch of `extractConsumption` reachable, but every in-range,
non-duplicate feed item is still marked processed whether or not an actor
was extracted. -/
theorem parser_totality_amended :
    (∀ (text : String),
      (idxOfSub usedMarker text.data = none ∨
       idxOfSub usedMarker text.data = some 0) →
      extractMemberName text ≠ "" ∧ extractMemberIdAndName text ≠ none)
    ∧ (∀ (items : List RawItem) (s e : Int) (st : ConsResult × List String)
        (it : RawItem), it ∈ items → inRangeB s e it = true →
        itemKey it ∈ (extractLoop s e items st).2) := by
  constructor
  · intro text h
    have hne := extractMemberName_fallback_ne text h
    refine ⟨hne, ?_⟩
    unfold extractMemberIdAndName
    cases hp : findProfile text.data with
    | some r => simp
    | none => simp [hne]
  · exact fun items s e st it hm hr => extractLoop_key_mem s e items st it hm hr

/-- Witness for C10's amended claim at concrete inputs: the hospital
message parses to a non-empty actor, and an in-range item is marked
processed. -/
theorem parser_totality_amended_witness :
    (extractMemberName caseMsg3 ≠ "" ∧ extractMemberIdAndName caseMsg3 ≠ none)
    ∧ itemKey (mkItem 3 5 caseMsg3) ∈
        (extractLoop 0 10 [mkItem 3 5 caseMsg3] (⟨[], []⟩, [])).2 :=
  ⟨parser_totality_amended.1 caseMsg3 (by decide),
   parser_totality_amended.2 [mkItem 3 5 caseMsg3] 0 10 (⟨[], []⟩, [])
     (mkItem 3 5 caseMsg3) (by simp) (by decide)⟩
